import Mathlib

/-!
Shallow embedding of the registry-and-reconciliation core of the ProtSLURM
repository (protslurm/poses.py and protslurm/runners.py).

Modelling conventions:
* pandas DataFrames become a structure of a column-name list and a list of
  rows; a row is an association list from column name to string cell value.
* Fallible operations (pandas KeyError / python ValueError, AttributeError)
  return Except String.
* String operations from python (split, rsplit, strip, splitext, basename,
  join, zfill) are implemented structurally over List Char so that every
  definition evaluates by kernel reduction.
* Filesystem side effects (shutil.copy, os.path.isfile, fasta splitting) do
  not affect the registry table and are modelled as no-ops on the table.
-/

namespace ProtSLURM

/-! ### python string primitives over List Char -/

/-- Suffix after the last occurrence of a character; the whole list when the
character does not occur.  This is python path.rsplit(c, 1)[-1]. -/
def afterLastChar (c : Char) (cs : List Char) : List Char :=
  ((cs.reverse.takeWhile (fun a => a != c)).reverse)

/-- Part before the last occurrence of a character (empty when the character
does not occur).  This is python s.rsplit(c, 1)[0] when c occurs. -/
def beforeLastChar (c : Char) (cs : List Char) : List Char :=
  (((cs.reverse.dropWhile (fun a => a != c)).drop 1).reverse)

/-- Prefix before the first occurrence of a character; the whole list when the
character does not occur.  This is python s.split(c, 1)[0]. -/
def beforeFirstChar (c : Char) (cs : List Char) : List Char :=
  cs.takeWhile (fun a => a != c)

/-- python s.strip(c): remove leading and trailing occurrences of c. -/
def stripCharL (c : Char) (cs : List Char) : List Char :=
  ((cs.dropWhile (fun a => a == c)).reverse.dropWhile (fun a => a == c)).reverse

/-- Index of the last occurrence of a dot, if any. -/
def lastDotIdx : List Char → Option Nat
  | [] => none
  | c :: cs =>
    match lastDotIdx cs with
    | some k => some (k + 1)
    | none => if c == '.' then some 0 else none

/-- Root part of python os.path.splitext, for inputs without a path
separator (the source only applies it to a basename): cut at the last dot
unless every character before that dot is itself a dot (leading dots of a
hidden file are not an extension separator in CPython). -/
def splitextRootL (cs : List Char) : List Char :=
  match lastDotIdx cs with
  | none => cs
  | some k => if (cs.take k).all (fun a => a == '.') then cs else cs.take k

/-- python os.path.basename: everything after the last slash. -/
def basename (path : String) : String :=
  String.mk (afterLastChar '/' path.toList)

/-- Strip a maximal prefix equal to sep, returning the rest, or none. -/
def stripPre? : List Char → List Char → Option (List Char)
  | [], cs => some cs
  | _ :: _, [] => none
  | s :: ss, c :: cs => if c == s then stripPre? ss cs else none

/-- Fueled worker for multi-character python str.split(sep). -/
def splitAux (sep : List Char) : Nat → List Char → List (List Char)
  | _, [] => [[]]
  | 0, cs => [cs]
  | n + 1, c :: cs =>
    match stripPre? sep (c :: cs) with
    | some rest => [] :: splitAux sep n rest
    | none =>
      match splitAux sep n cs with
      | [] => [[c]]
      | y :: ys => (c :: y) :: ys

/-- python s.split(sep) for a non-empty separator string (scans left to
right, keeps empty fragments, never drops a separator match). -/
def pySplit (s sep : String) : List String :=
  if sep.toList = [] then [s]
  else (splitAux sep.toList s.toList.length s.toList).map String.mk

/-- Splitting at every character satisfying a predicate (keeps empties). -/
def splitPred (p : Char → Bool) : List Char → List (List Char)
  | [] => [[]]
  | c :: cs =>
    let r := splitPred p cs
    if p c then [] :: r
    else
      match r with
      | [] => [[c]]
      | y :: ys => (c :: y) :: ys

/-- python s.split() with no argument: split on whitespace runs, dropping
empty fragments. -/
def pySplitWs (s : String) : List String :=
  ((splitPred (fun c => c.isWhitespace) s.toList).filter (fun t => t ≠ [])).map String.mk

/-- python s.strip(): trim whitespace from both ends. -/
def pyStrip (s : String) : String :=
  String.mk (((s.toList.dropWhile Char.isWhitespace).reverse.dropWhile Char.isWhitespace).reverse)

/-- python sep.join(items). -/
def joinWith (sep : String) (l : List String) : String :=
  match l with
  | [] => ""
  | x :: xs => xs.foldl (fun a b => a ++ sep ++ b) x

/-- python str(n).zfill(4). -/
def zfill4 (n : Nat) : String :=
  let s := Nat.repr n
  String.mk (List.replicate (4 - s.length) '0' ++ s.toList)

/-! ### rows, dictionaries and data frames -/

/-- A table row (also used for python dicts): association list from column
name to string cell value.  Lookup returns the first binding. -/
abbrev Row := List (String × String)

/-- Cell lookup, with the empty string for a missing column (the embedding
keeps rows aligned with the column list, so the default is never observed on
well-formed frames). -/
def Row.get (r : Row) (c : String) : String :=
  match r.find? (fun p => p.1 == c) with
  | some p => p.2
  | none => ""

/-- Optional lookup. -/
def Row.get? (r : Row) (c : String) : Option String :=
  (r.find? (fun p => p.1 == c)).map Prod.snd

/-- python dict assignment d[c] = v (pandas column assignment has the same
shape): overwrite in place when the key is present, append otherwise. -/
def Row.set (r : Row) (c : String) (v : String) : Row :=
  if r.any (fun p => p.1 == c) then
    r.map (fun p => if p.1 == c then (c, v) else p)
  else
    r ++ [(c, v)]

/-- python d.update(o): assign every binding of o into d, in order. -/
def Row.update (d o : Row) : Row :=
  o.foldl (fun acc p => acc.set p.1 p.2) d

/-- Remove every binding of a column from a row. -/
def Row.eraseCol (r : Row) (c : String) : Row :=
  r.filter (fun p => p.1 != c)

/-- A pandas DataFrame: ordered column names and ordered rows. -/
structure DataFrame where
  cols : List String
  rows : List Row
deriving DecidableEq, Repr

/-- pandas df[c] = df.apply(f): set a column from a per-row function,
appending the column name when new. -/
def DataFrame.setCol (df : DataFrame) (c : String) (f : Row → String) : DataFrame :=
  ⟨if df.cols.contains c then df.cols else df.cols ++ [c],
   df.rows.map (fun r => r.set c (f r))⟩

/-- pandas df.drop(c, axis=1): KeyError when the column is absent. -/
def DataFrame.dropCol (df : DataFrame) (c : String) : Except String DataFrame :=
  if df.cols.contains c then
    .ok ⟨df.cols.erase c, df.rows.map (fun r => r.eraseCol c)⟩
  else
    .error ("KeyError: " ++ c ++ " not found in axis")

/-- pandas df.add_prefix(pre): rename every column. -/
def DataFrame.addPre (df : DataFrame) (pre : String) : DataFrame :=
  ⟨df.cols.map (fun c => pre ++ c),
   df.rows.map (fun r => r.map (fun p => (pre ++ p.1, p.2)))⟩

/-- pandas df[dst] = df[src]: KeyError when the source column is absent. -/
def DataFrame.setColFrom (df : DataFrame) (dst src : String) : Except String DataFrame :=
  if df.cols.contains src then
    .ok (df.setCol dst (fun r => r.get src))
  else
    .error ("KeyError: " ++ src)

/-- Rows of the pandas inner merge df_left.merge(df_right, left_on, right_on):
left-frame order outermost, cells of the left row then the right row. -/
def innerJoinRows (left right : List Row) (left_on right_on : String) : List Row :=
  left.flatMap (fun pr =>
    (right.filter (fun rr => pr.get left_on == rr.get right_on)).map (fun rr => pr ++ rr))

/-- pandas df_left.merge(df_right, left_on=..., right_on=...), inner join.
KeyError when a key column is absent.  Overlapping non-key column names are
renamed by pandas; the embedding keeps both bindings and lookups return the
left one (the source only warns about this case and no claim exercises it). -/
def mergeOn (left right : DataFrame) (left_on right_on : String) : Except String DataFrame :=
  if left.cols.contains left_on then
    if right.cols.contains right_on then
      .ok ⟨left.cols ++ right.cols, innerJoinRows left.rows right.rows left_on right_on⟩
    else
      .error ("KeyError: " ++ right_on)
  else
    .error ("KeyError: " ++ left_on)

/-- pandas pd.concat([a, b]): rows stacked, columns the ordered union. -/
def concatDF (a b : DataFrame) : DataFrame :=
  ⟨a.cols ++ b.cols.filter (fun c => !(a.cols.contains c)), a.rows ++ b.rows⟩

/-! ### poses.py -/

/-- poses.py line 32f inside check_data_formatting callers and runners.py
line 32: os.path.splitext(os.path.basename(path))[0]. -/
def extract_description (path : String) : String :=
  String.mk (splitextRootL (basename path).toList)

/-- poses.py line 166: parse one description, i.e.
pose.strip(slash).rsplit(slash, 1)[-1].split(dot, 1)[0]. -/
def parse_description (pose : String) : String :=
  String.mk (beforeFirstChar '.' (afterLastChar '/' (stripCharL '/' pose.toList)))

/-- poses.py line 166: Poses.parse_descriptions over a list of pose paths. -/
def parse_descriptions (poses : List String) : List String :=
  poses.map parse_description

/-- poses.py line 170: Poses.set_poses, at the DataFrame construction of
line 188.  The multiline-fasta branch (lines 181-186) only reads files from
the filesystem and rewrites the path list for .fa inputs; the model takes
the path list as it stands at line 188. -/
def set_poses (poses : List String) : DataFrame :=
  ⟨["input_poses", "poses", "poses_description"],
   poses.map (fun p =>
     [("input_poses", p), ("poses", p), ("poses_description", parse_description p)])⟩

/-- poses.py line 278: Poses.poses_list, the poses column as a list. -/
def poses_list (df : DataFrame) : List String :=
  df.rows.map (fun r => r.get "poses")

/-- The poses_description column as a list. -/
def descriptions_list (df : DataFrame) : List String :=
  df.rows.map (fun r => r.get "poses_description")

/-- python s.rsplit(sep, 1) for a single-character separator, as used for
tuple unpacking: none (a ValueError in python) when sep does not occur. -/
def rsplitOnce (c : Char) (s : String) : Option (String × String) :=
  if s.toList.contains c then
    some (String.mk (beforeLastChar c s.toList), String.mk (afterLastChar c s.toList))
  else
    none

/-- python fp.rsplit(c, 1)[-1]: after the last occurrence, or the whole
string when c does not occur. -/
def rsplitTail (c : Char) (s : String) : String :=
  String.mk (afterLastChar c s.toList)

/-- python fp.rsplit(c, 1)[0]: before the last occurrence, or the whole
string when c does not occur. -/
def rsplitHead (c : Char) (s : String) : String :=
  if s.toList.contains c then String.mk (beforeLastChar c s.toList) else s

/-- poses.py line 293: insert_index_layer inside duplicate_poses.
pose.rsplit(slash, 1) and filename.rsplit(dot, 1) unpack into two names, a
ValueError when the separator is absent. -/
def insert_index_layer (pose : String) (n : Nat) (sep : String) : Except String String :=
  match rsplitOnce '/' pose with
  | none => .error "ValueError: not enough values to unpack"
  | some (filepath, filename) =>
    match rsplitOnce '.' filename with
    | none => .error "ValueError: not enough values to unpack"
    | some (description, ext) =>
      .ok (filepath ++ "/" ++ description ++ sep ++ zfill4 n ++ "." ++ ext)

/-- poses.py line 289: Poses.duplicate_poses.  Note line 308 of the source
computes self.df.merge(...) but never assigns the result, so the merged
frame is discarded; line 311 then drops temp_dp_select_col from the
unchanged self.df.  Lines 314-317 only copy files on the filesystem. -/
def duplicate_poses (df : DataFrame) (output_dir : String) (n_duplicates : Nat) :
    Except String DataFrame := do
  let pairs := (poses_list df).flatMap (fun pose =>
    (List.range n_duplicates).map (fun n => (pose, n)))
  let output_files ← pairs.mapM (fun pn =>
    (insert_index_layer pn.1 pn.2 "_").map (fun s => output_dir ++ "/" ++ s))
  let output_dict : DataFrame :=
    ⟨["temp_dp_select_col", "temp_dp_description", "temp_dp_location"],
     output_files.map (fun fp =>
       [("temp_dp_select_col", rsplitHead '_' (rsplitTail '/' fp)),
        ("temp_dp_description", rsplitHead '.' (rsplitTail '/' fp)),
        ("temp_dp_location", fp)])⟩
  let _merged ← mergeOn df output_dict "poses_description" "temp_dp_select_col"
  let dropped ← df.dropCol "temp_dp_select_col"
  let out1 ← dropped.setColFrom "poses" "temp_dp_location"
  let out2 ← out1.setColFrom "poses_description" "description"
  .ok out2

/-! ### runners.py -/

/-- runners.py line 35. -/
def mandatory_cols : List String := ["description", "location"]

/-- runners.py line 28: RunnerOutput.check_data_formatting.  Raises when a
mandatory column is absent or when some description does not equal the
basename-without-extension of its location. -/
def check_data_formatting (results : DataFrame) : Except String DataFrame :=
  if mandatory_cols.any (fun c => !(results.cols.contains c)) then
    .error "Input Data to RunnerOutput class MUST contain columns description and location."
  else if !(results.rows.all (fun r =>
      r.get "description" == extract_description (r.get "location"))) then
    .error "description column does not match location column in runner output dataframe!"
  else
    .ok results

/-- runners.py line 20: the pandas chain
description.str.split(index_sep).str[:-index_layers].str.join(index_sep). -/
def strip_index_layers (index_layers : Nat) (index_sep d : String) : String :=
  let toks := pySplit d index_sep
  joinWith index_sep (toks.take (toks.length - index_layers))

/-- runners.py line 15: RunnerOutput.__init__ on the results frame: validate,
derive select_col (stripping index layers when index_layers is non-zero),
then prefix every column with the stage prefix and an underscore. -/
def runner_output_init (results : DataFrame) (pfx : String) (index_layers : Nat)
    (index_sep : String) : Except String DataFrame := do
  let checked ← check_data_formatting results
  let with_select :=
    if index_layers ≠ 0 then
      checked.setCol "select_col"
        (fun r => strip_index_layers index_layers index_sep (r.get "description"))
    else
      checked.setCol "select_col" (fun r => r.get "description")
  .ok (with_select.addPre (pfx ++ "_"))

/-- runners.py line 65 message. -/
def noOverlapMsg : String :=
  "Merging DataFrames failed. This means there was no overlap found between poses.df poses_description and results new_df_col"

/-- runners.py line 67 message. -/
def pipelineDropMsg : String :=
  "Merging DataFrames failed. Some rows in results new_df_col were not found in poses.df poses_description"

/-- runners.py line 40: RunnerOutput.return_poses on the registry frame and
the already-initialised results frame.  startlen is the RESULT table's row
count (line 44).  An empty registry concatenates (line 53); otherwise an
inner merge of poses_description against the prefixed select_col (line 57);
the select column is dropped, the zero-row and short-count checks run, and
the poses / poses_description columns are reset from the prefixed location /
description columns. -/
def return_poses (poses_df results : DataFrame) (pfx : String) : Except String DataFrame :=
  let startlen := results.rows.length
  let mergedE :=
    if (poses_list poses_df).length = 0 then
      Except.ok (concatDF poses_df results)
    else
      mergeOn poses_df results "poses_description" (pfx ++ "_select_col")
  match mergedE with
  | .error e => .error e
  | .ok merged =>
    match merged.dropCol (pfx ++ "_select_col") with
    | .error e => .error e
    | .ok dropped =>
      if dropped.rows.length = 0 then .error noOverlapMsg
      else if dropped.rows.length < startlen then .error pipelineDropMsg
      else
        match dropped.setColFrom "poses" (pfx ++ "_location") with
        | .error e => .error e
        | .ok out1 =>
          match out1.setColFrom "poses_description" (pfx ++ "_description") with
          | .error e => .error e
          | .ok out2 => .ok out2

/-- The registry table after a call of return_poses: the source assigns
self.poses.df only at line 74, after every raise, so on error the registry
keeps its previous frame. -/
def return_poses_state (poses_df results : DataFrame) (pfx : String) :
    Except String DataFrame × DataFrame :=
  match return_poses poses_df results pfx with
  | .ok df => (.ok df, df)
  | .error e => (.error e, poses_df)

/-- runners.py line 172: col_in_df, KeyError when the column is absent. -/
def col_in_df (df : DataFrame) (column : String) : Except String Unit :=
  if df.cols.contains column then .ok ()
  else .error ("KeyError: Could not find " ++ column ++ " in poses dataframe!")

/-- The python argument pose_options of Runner.prep_pose_options: a column
name, a literal list (entries possibly None), or None. -/
inductive PoseOptionsArg where
  | fromCol (column : String)
  | lit (opts : List (Option String))
  | unset
deriving DecidableEq, Repr

/-- runners.py line 99: Runner.prep_pose_options.  When given a column name
the source calls poses.df[col].poses_list() (line 104): poses_list is a
method of the Poses class, not of a pandas Series, so after the col_in_df
check succeeds an AttributeError is raised before any value is produced.
When given None, one None entry per registry row is produced; the length
check (line 111) fires when the lengths differ and the registry is
non-empty. -/
def prep_pose_options (df : DataFrame) (pose_options : PoseOptionsArg) :
    Except String (List (Option String)) :=
  match pose_options with
  | .fromCol c =>
    match col_in_df df c with
    | .error e => .error e
    | .ok _ => .error "AttributeError: Series object has no attribute poses_list"
  | .lit l =>
    if df.rows.length ≠ l.length ∧ df.rows.length ≠ 0 then
      .error "ValueError: poses and pose_options must be of the same length"
    else
      .ok l
  | .unset =>
    let po : List (Option String) := df.rows.map (fun _ => none)
    if df.rows.length ≠ po.length ∧ df.rows.length ≠ 0 then
      .error "ValueError: poses and pose_options must be of the same length"
    else
      .ok po

/-- runners.py lines 188-194: the body of the parsing loop of
expand_options_flags.  A fragment with an internal space is a key/value pair
split at the first whitespace run; otherwise a fragment with an equals sign
is a pair split at the first equals sign; otherwise it is a bare flag. -/
def expand_item_step (acc : Row × List String) (item : String) : Row × List String :=
  let xw := pySplitWs item
  if xw.length > 1 then
    (acc.1.set (xw.headD "") (joinWith " " xw.tail), acc.2)
  else
    let xe := pySplit item "="
    if xe.length > 1 then
      (acc.1.set (xe.headD "") (joinWith "=" xe.tail), acc.2)
    else
      (acc.1, acc.2 ++ [xe.headD ""])

/-- runners.py line 177: expand_options_flags.  The options dict keeps
python insertion-and-overwrite order; the flag list is returned as a set. -/
def expand_options_flags (options_str : String) (sep : String) : Row × Finset String :=
  if options_str = "" then ([], ∅)
  else
    let firstsplit := ((pySplit options_str sep).filter (fun x => x ≠ "")).map pyStrip
    let parsed := firstsplit.foldl expand_item_step ([], [])
    (parsed.1, parsed.2.toFinset)

/-- runners.py line 139: parse_generic_options.  Options from both strings
are parsed independently; the pose-specific dict updates the generic dict
(override wins) and the flag sets are united.  The source converts the final
set back to a list in unspecified order; the model keeps the set. -/
def parse_generic_options (options pose_options sep : String) : Row × Finset String :=
  let g := expand_options_flags options sep
  let p := expand_options_flags pose_options sep
  (Row.update g.1 p.1, g.2 ∪ p.2)

/-! ### generic list lemmas -/

theorem sum_map_add (l : List α) (f g : α → Nat) :
    (l.map (fun a => f a + g a)).sum = (l.map f).sum + (l.map g).sum := by
  induction l with
  | nil => simp
  | cons a t ih => simp [ih]; omega

theorem sum_map_zero (l : List α) : (l.map (fun _ => (0 : Nat))).sum = 0 := by
  induction l with
  | nil => simp
  | cons a t ih => simp [ih]

theorem length_filter_eq_sum (l : List α) (p : α → Bool) :
    (l.filter p).length = (l.map (fun a => if p a then 1 else 0)).sum := by
  induction l with
  | nil => simp
  | cons a t ih =>
    cases h : p a <;> simp [List.filter_cons, h, ih] <;> omega

theorem sum_map_comm (l₁ : List α) (l₂ : List β) (g : α → β → Nat) :
    (l₁.map (fun a => (l₂.map (g a)).sum)).sum
      = (l₂.map (fun b => (l₁.map (fun a => g a b)).sum)).sum := by
  induction l₁ with
  | nil => simp [sum_map_zero]
  | cons a t ih => simp [ih, sum_map_add]

theorem length_le_sum_map (l : List β) (f : β → Nat) (h : ∀ b ∈ l, 1 ≤ f b) :
    l.length ≤ (l.map f).sum := by
  induction l with
  | nil => simp
  | cons a t ih =>
    have ha := h a (by simp)
    have ht := ih (fun b hb => h b (by simp [hb]))
    simp only [List.map_cons, List.sum_cons, List.length_cons]
    omega

theorem sum_map_pos (l : List β) (f : β → Nat) (b : β) (hb : b ∈ l) (h1 : 0 < f b) :
    0 < (l.map f).sum := by
  induction l with
  | nil => cases hb
  | cons a t ih =>
    rcases List.mem_cons.mp hb with h | h
    · subst h; simp only [List.map_cons, List.sum_cons]; omega
    · have := ih h; simp only [List.map_cons, List.sum_cons]; omega

theorem forall₂_map_left {R : α → β → Prop} (l : List β) (f : β → α)
    (h : ∀ x ∈ l, R (f x) x) : List.Forall₂ R (l.map f) l := by
  induction l with
  | nil => exact List.Forall₂.nil
  | cons a t ih =>
    exact List.Forall₂.cons (h a (by simp)) (ih (fun x hx => h x (by simp [hx])))

/-! ### string lemmas -/

theorem string_toList_append (a b : String) : (a ++ b).toList = a.toList ++ b.toList := rfl

theorem string_append_left_cancel {s a b : String} (h : s ++ a = s ++ b) : a = b := by
  have h2 : a.toList = b.toList := List.append_cancel_left (congrArg String.toList h)
  cases a with
  | mk d1 =>
    cases b with
    | mk d2 => exact congrArg String.mk (by simpa [String.toList] using h2)

theorem string_append_ne_of_ne (s : String) {a b : String} (h : a ≠ b) : s ++ a ≠ s ++ b :=
  fun hc => h (string_append_left_cancel hc)

theorem string_beq_append_left (s a b : String) : (s ++ a == s ++ b) = (a == b) := by
  by_cases h : a = b
  · simp [h]
  · simp [h, string_append_ne_of_ne s h]

/-! ### row lookup lemmas -/

theorem Row.get_eq_get? (r : Row) (c : String) : r.get c = (r.get? c).getD "" := by
  unfold Row.get Row.get?
  cases r.find? (fun p => p.1 == c) <;> rfl

theorem find?_map_overwrite (r : Row) (c v : String)
    (h : r.any (fun p => p.1 == c) = true) :
    (r.map (fun p => if p.1 == c then (c, v) else p)).find? (fun p => p.1 == c)
      = some (c, v) := by
  induction r with
  | nil => simp at h
  | cons p t ih =>
    by_cases hp : p.1 = c
    · simp [List.map_cons, hp, List.find?_cons_of_pos]
    · have hb : (p.1 == c) = false := beq_eq_false_iff_ne.mpr hp
      have h' : (t.any fun p => p.1 == c) = true := by
        rw [List.any_cons, hb, Bool.false_or] at h; exact h
      simp only [List.map_cons, hb, Bool.false_eq_true, if_false]
      rw [List.find?_cons_of_neg _ (by simp [hb])]
      exact ih h'

theorem find?_map_overwrite_ne (r : Row) (c v k : String) (hk : k ≠ c) :
    (r.map (fun p => if p.1 == c then (c, v) else p)).find? (fun p => p.1 == k)
      = r.find? (fun p => p.1 == k) := by
  induction r with
  | nil => rfl
  | cons p t ih =>
    have hck : (c == k) = false := beq_eq_false_iff_ne.mpr (fun hc => hk hc.symm)
    by_cases hp : p.1 = c
    · have h2 : (p.1 == k) = false := by rw [hp]; exact hck
      simp only [List.map_cons, hp, beq_self_eq_true, if_true]
      rw [List.find?_cons_of_neg _ (by simp [hck]), List.find?_cons_of_neg _ (by simp [h2])]
      exact ih
    · have hb : (p.1 == c) = false := beq_eq_false_iff_ne.mpr hp
      by_cases hpk : p.1 = k
      · simp only [List.map_cons, hb, Bool.false_eq_true, if_false]
        rw [List.find?_cons_of_pos _ (by simp [hpk]), List.find?_cons_of_pos _ (by simp [hpk])]
      · have hbk : (p.1 == k) = false := beq_eq_false_iff_ne.mpr hpk
        simp only [List.map_cons, hb, Bool.false_eq_true, if_false]
        rw [List.find?_cons_of_neg _ (by simp [hbk]), List.find?_cons_of_neg _ (by simp [hbk])]
        exact ih

theorem get?_set_self (r : Row) (c v : String) : (r.set c v).get? c = some v := by
  unfold Row.set Row.get?
  by_cases h : r.any (fun p => p.1 == c) = true
  · rw [if_pos h, find?_map_overwrite r c v h]
    rfl
  · rw [if_neg h, List.find?_append]
    have hn : r.find? (fun p => p.1 == c) = none := by
      rw [List.find?_eq_none]
      intro x hx hpx
      exact h (List.any_eq_true.mpr ⟨x, hx, hpx⟩)
    rw [hn]
    simp [List.find?]

theorem get?_set_ne (r : Row) (c v k : String) (hk : k ≠ c) :
    (r.set c v).get? k = r.get? k := by
  unfold Row.set Row.get?
  by_cases h : r.any (fun p => p.1 == c) = true
  · rw [if_pos h, find?_map_overwrite_ne r c v k hk]
  · rw [if_neg h, List.find?_append]
    have h1 : List.find? (fun p => p.1 == k) [(c, v)] = none := by
      have : (c == k) = false := beq_eq_false_iff_ne.mpr (fun hc => hk hc.symm)
      simp [List.find?, this]
    rw [h1]
    cases r.find? (fun p => p.1 == k) <;> rfl

theorem get_set_self (r : Row) (c v : String) : (r.set c v).get c = v := by
  rw [Row.get_eq_get?, get?_set_self]; rfl

theorem get_set_ne (r : Row) (c v k : String) (hk : k ≠ c) :
    (r.set c v).get k = r.get k := by
  rw [Row.get_eq_get?, Row.get_eq_get?, get?_set_ne r c v k hk]

theorem find?_filter_ne (r : Row) (c k : String) (hk : k ≠ c) :
    (r.filter (fun p => p.1 != c)).find? (fun p => p.1 == k)
      = r.find? (fun p => p.1 == k) := by
  induction r with
  | nil => rfl
  | cons p t ih =>
    by_cases hp : p.1 = c
    · have h2 : (p.1 == k) = false :=
        beq_eq_false_iff_ne.mpr (by rw [hp]; exact fun hc => hk hc.symm)
      have hfc : (p.1 != c) = false := by simp [hp]
      rw [List.filter_cons, hfc]
      simp only [Bool.false_eq_true, if_false]
      rw [List.find?_cons_of_neg _ (by simp [h2])]
      exact ih
    · have hfc : (p.1 != c) = true := by simp [hp]
      rw [List.filter_cons, hfc]
      simp only [if_true]
      by_cases hpk : p.1 = k
      · rw [List.find?_cons_of_pos _ (by simp [hpk]), List.find?_cons_of_pos _ (by simp [hpk])]
      · have hbk : (p.1 == k) = false := beq_eq_false_iff_ne.mpr hpk
        rw [List.find?_cons_of_neg _ (by simp [hbk]), List.find?_cons_of_neg _ (by simp [hbk])]
        exact ih

theorem get?_eraseCol_ne (r : Row) (c k : String) (hk : k ≠ c) :
    (r.eraseCol c).get? k = r.get? k := by
  unfold Row.eraseCol Row.get?
  rw [find?_filter_ne r c k hk]

theorem get_eraseCol_ne (r : Row) (c k : String) (hk : k ≠ c) :
    (r.eraseCol c).get k = r.get k := by
  rw [Row.get_eq_get?, Row.get_eq_get?, get?_eraseCol_ne r c k hk]

theorem find?_cons_eq (p : α → Bool) (a : α) (l : List α) :
    (a :: l).find? p = if p a then some a else l.find? p := by
  by_cases h : p a = true
  · rw [List.find?_cons_of_pos _ h, if_pos h]
  · rw [List.find?_cons_of_neg _ h, if_neg (by simpa using h)]

theorem find?_addPre (r : Row) (pre k : String) :
    (r.map (fun p => (pre ++ p.1, p.2))).find? (fun p => p.1 == pre ++ k)
      = Option.map (fun p => (pre ++ p.1, p.2)) (r.find? (fun p => p.1 == k)) := by
  induction r with
  | nil => rfl
  | cons p t ih =>
    rw [List.map_cons, find?_cons_eq, find?_cons_eq]
    by_cases hp : p.1 = k
    · have hT : (pre ++ p.1 == pre ++ k) = true := by
        rw [string_beq_append_left]; simp [hp]
      simp [hT, hp]
    · have hb : (p.1 == k) = false := beq_eq_false_iff_ne.mpr hp
      have hF : (pre ++ p.1 == pre ++ k) = false := by rw [string_beq_append_left]; exact hb
      simp only [hF, hb, Bool.false_eq_true, if_false]
      exact ih

theorem get?_addPre (r : Row) (pre k : String) :
    Row.get? (r.map (fun p => (pre ++ p.1, p.2))) (pre ++ k) = Row.get? r k := by
  unfold Row.get?
  rw [find?_addPre r pre k]
  cases r.find? (fun p => p.1 == k) <;> rfl

theorem get_addPre (r : Row) (pre k : String) :
    Row.get (r.map (fun p => (pre ++ p.1, p.2))) (pre ++ k) = Row.get r k := by
  rw [Row.get_eq_get?, Row.get_eq_get?, get?_addPre]

/-! ### claim C3: schema validation of the raw result table -/

theorem runner_output_init_isOk (results : DataFrame) (pfx : String) (k : Nat) (sep : String) :
    (runner_output_init results pfx k sep).isOk = (check_data_formatting results).isOk := by
  unfold runner_output_init
  cases h : check_data_formatting results <;> rfl

/-- Claim C3: constructing a RunnerOutput (validation step of the
reconciler) raises a schema error if and only if the raw result table is
invalid: it raises when the mandatory column description or location is
absent, and when some row's description differs from the
basename-without-extension of its location; for every table with both
columns where every row corresponds, construction succeeds. -/
theorem error_not_isOk (e : String) (h : (Except.error e : Except String DataFrame).isOk = true) :
    False := by
  simp [Except.isOk, Except.toBool] at h

theorem claim_C3_schema_validation (results : DataFrame) (pfx : String) (k : Nat) (sep : String) :
    (runner_output_init results pfx k sep).isOk = true ↔
      ("description" ∈ results.cols ∧
       "location" ∈ results.cols ∧
       ∀ r ∈ results.rows, Row.get r "description" = extract_description (Row.get r "location")) := by
  rw [runner_output_init_isOk]
  unfold check_data_formatting
  by_cases h1 : mandatory_cols.any (fun c => !(results.cols.contains c)) = true
  · rw [if_pos h1]
    constructor
    · intro hcontra
      exact absurd hcontra (fun hc => error_not_isOk _ hc)
    · rintro ⟨hd, hl, -⟩
      simp [mandatory_cols, hd, hl] at h1
  · rw [if_neg h1]
    have hany : mandatory_cols.any (fun c => !(results.cols.contains c)) = false :=
      eq_false_of_ne_true h1
    simp only [mandatory_cols, List.any_cons, List.any_nil, Bool.or_false,
      Bool.or_eq_false_iff, Bool.not_eq_false'] at hany
    obtain ⟨hd, hl⟩ := hany
    have hdm : "description" ∈ results.cols := by
      simpa using hd
    have hlm : "location" ∈ results.cols := by
      simpa using hl
    by_cases h2 : (results.rows.all (fun r =>
        Row.get r "description" == extract_description (Row.get r "location"))) = true
    · rw [if_neg (by simp [h2])]
      refine ⟨fun _ => ⟨hdm, hlm, ?_⟩, fun _ => rfl⟩
      intro r hr
      exact beq_iff_eq.mp (List.all_eq_true.mp h2 r hr)
    · rw [if_pos (by simp [eq_false_of_ne_true h2])]
      constructor
      · intro hcontra
        exact absurd hcontra (fun hc => error_not_isOk _ hc)
      · rintro ⟨-, -, hrows⟩
        exact absurd (List.all_eq_true.mpr (fun r hr => beq_iff_eq.mpr (hrows r hr))) h2

/-! ### claim C4: the derived join key strips trailing index layers -/

theorem check_data_formatting_ok_eq {results df : DataFrame}
    (h : check_data_formatting results = .ok df) : df = results := by
  unfold check_data_formatting at h
  split at h
  · cases h
  · split at h
    · cases h
    · cases h
      rfl

/-- Claim C4: for every validated raw result table and every index_layers
value k, the derived select_col of each row equals that row's description
with the last k separator-delimited tokens removed and the remaining tokens
rejoined by the separator when k is positive, and equals the description
unchanged when k is zero. -/
theorem claim_C4_select_col (results : DataFrame) (pfx : String) (k : Nat) (sep : String)
    (df' : DataFrame) (h : runner_output_init results pfx k sep = .ok df') :
    List.Forall₂ (fun r' r =>
      Row.get r' (pfx ++ "_select_col") =
        if k ≠ 0 then
          joinWith sep ((pySplit (Row.get r "description") sep).take
            ((pySplit (Row.get r "description") sep).length - k))
        else
          Row.get r "description")
      df'.rows results.rows := by
  unfold runner_output_init at h
  cases hc : check_data_formatting results with
  | error e => rw [hc] at h; cases h
  | ok checked =>
    rw [hc] at h
    have hcr : checked = results := check_data_formatting_ok_eq hc
    rw [hcr] at h
    have h2 : (Except.ok (((if k ≠ 0 then
          results.setCol "select_col" (fun r => strip_index_layers k sep (r.get "description"))
        else
          results.setCol "select_col" (fun r => r.get "description")).addPre (pfx ++ "_")))
        : Except String DataFrame) = Except.ok df' := h
    injection h2 with h3
    have hsel : (pfx ++ "_select_col") = (pfx ++ "_") ++ "select_col" := by
      rw [String.append_assoc]
      exact congrArg (fun t => pfx ++ t) (by decide)
    by_cases hk : k ≠ 0
    · rw [if_pos hk] at h3
      subst h3
      simp only [DataFrame.addPre, DataFrame.setCol, List.map_map]
      apply forall₂_map_left
      intro r _
      rw [if_pos hk, hsel, Function.comp_apply, get_addPre, get_set_self]
      rfl
    · rw [if_neg hk] at h3
      subst h3
      simp only [DataFrame.addPre, DataFrame.setCol, List.map_map]
      apply forall₂_map_left
      intro r _
      rw [if_neg hk, hsel, Function.comp_apply, get_addPre, get_set_self]

/-- Concrete raw result table with one index layer in its description. -/
def c4raw : DataFrame :=
  ⟨["description", "location"],
   [[("description", "a_0001"), ("location", "d/a_0001.pdb")]]⟩

/-- The frame produced from c4raw by RunnerOutput.__init__ with one index
layer. -/
def c4df : DataFrame :=
  ⟨["p_description", "p_location", "p_select_col"],
   [[("p_description", "a_0001"), ("p_location", "d/a_0001.pdb"), ("p_select_col", "a")]]⟩

/-- Witness for claim C4 at a concrete input. -/
theorem claim_C4_select_col_witness :
    runner_output_init c4raw "p" 1 "_" = .ok c4df ∧
    List.Forall₂ (fun r' r =>
      Row.get r' ("p" ++ "_select_col") =
        if (1 : Nat) ≠ 0 then
          joinWith "_" ((pySplit (Row.get r "description") "_").take
            ((pySplit (Row.get r "description") "_").length - 1))
        else
          Row.get r "description")
      c4df.rows c4raw.rows :=
  ⟨by rfl, claim_C4_select_col c4raw "p" 1 "_" c4df (by rfl)⟩

/-! ### claim C5: option merging -/

/-- Keys of an association list are pairwise distinct. -/
def NodupKeys (d : Row) : Prop := (d.map Prod.fst).Nodup

theorem keys_set_of_mem (r : Row) (c v : String)
    (h : r.any (fun p => p.1 == c) = true) :
    ((r.set c v).map Prod.fst) = r.map Prod.fst := by
  unfold Row.set
  rw [if_pos h, List.map_map]
  apply List.map_congr_left
  intro p _
  by_cases hp : p.1 = c
  · simp [hp]
  · simp [Function.comp, beq_eq_false_iff_ne.mpr hp]

theorem nodupKeys_set (r : Row) (c v : String) (h : NodupKeys r) :
    NodupKeys (r.set c v) := by
  unfold NodupKeys at *
  by_cases hm : r.any (fun p => p.1 == c) = true
  · rw [keys_set_of_mem r c v hm]; exact h
  · unfold Row.set
    rw [if_neg hm, List.map_append]
    rw [List.nodup_append]
    refine ⟨h, List.nodup_singleton c, ?_⟩
    intro a ha hb
    have hac : a = c := by simpa using hb
    subst hac
    obtain ⟨p, hpr, hpa⟩ := List.mem_map.mp ha
    exact hm (List.any_eq_true.mpr ⟨p, hpr, by simp [hpa]⟩)

theorem get?_cons (p : String × String) (r : Row) (k : String) :
    Row.get? (p :: r) k = if p.1 = k then some p.2 else Row.get? r k := by
  unfold Row.get?
  rw [find?_cons_eq]
  by_cases hp : p.1 = k
  · rw [if_pos (by simp [hp]), if_pos hp]
    rfl
  · rw [if_neg (by simp [hp]), if_neg hp]

theorem update_get? (d o : Row) (h : NodupKeys o) (k : String) :
    Row.get? (Row.update d o) k = (Row.get? o k).or (Row.get? d k) := by
  induction o generalizing d with
  | nil => simp [Row.update, Row.get?, List.find?]
  | cons p o' ih =>
    have hnd : NodupKeys o' := (List.nodup_cons.mp h).2
    have hp1 : p.1 ∉ o'.map Prod.fst := (List.nodup_cons.mp h).1
    unfold Row.update
    rw [List.foldl_cons]
    have ih' := ih (d.set p.1 p.2) hnd
    unfold Row.update at ih'
    rw [ih', get?_cons]
    by_cases hk : p.1 = k
    · rw [if_pos hk]
      have hfind : List.find? (fun q => q.1 == k) o' = none := by
        rw [List.find?_eq_none]
        intro x hx hpx
        have hxk : x.1 = k := by simpa using hpx
        exact hp1 (List.mem_map.mpr ⟨x, hx, by rw [hxk, hk]⟩)
      have ho' : Row.get? o' k = none := by
        unfold Row.get?
        rw [hfind]
        rfl
      rw [ho', ← hk, get?_set_self]
      rfl
    · rw [if_neg hk]
      rw [get?_set_ne d p.1 p.2 k (fun hc => hk hc.symm)]

theorem foldl_preserve {γ δ : Type} {P : γ → Prop} (f : γ → δ → γ)
    (hstep : ∀ acc x, P acc → P (f acc x)) :
    ∀ (l : List δ) (init : γ), P init → P (l.foldl f init) := by
  intro l
  induction l with
  | nil => intro init h; exact h
  | cons a t ih => intro init h; exact ih _ (hstep _ _ h)

theorem nodupKeys_expand_step (acc : Row × List String) (item : String)
    (hacc : NodupKeys acc.1) : NodupKeys (expand_item_step acc item).1 := by
  unfold expand_item_step
  by_cases h1 : (pySplitWs item).length > 1
  · rw [if_pos h1]; exact nodupKeys_set _ _ _ hacc
  · rw [if_neg h1]
    by_cases h2 : (pySplit item "=").length > 1
    · rw [if_pos h2]; exact nodupKeys_set _ _ _ hacc
    · rw [if_neg h2]; exact hacc

theorem nodupKeys_expand (s sep : String) : NodupKeys (expand_options_flags s sep).1 := by
  unfold expand_options_flags
  by_cases h : s = ""
  · rw [if_pos h]; exact List.nodup_nil
  · rw [if_neg h]
    exact foldl_preserve (P := fun acc : Row × List String => NodupKeys acc.1)
      expand_item_step nodupKeys_expand_step _ ([], []) List.nodup_nil

/-- Claim C5: parse_generic_options returns the generic string's key/value
map updated by the override string's map, the override value winning on
every key collision, together with the union of the two flag sets; the two
concrete example merges behave as stated; an empty input string contributes
an empty map and an empty flag set.  All involved functions are total, so no
error is possible. -/
theorem claim_C5_option_merge :
    (∀ (options pose_options sep k : String),
        Row.get? (parse_generic_options options pose_options sep).1 k
          = (Row.get? (expand_options_flags pose_options sep).1 k).or
            (Row.get? (expand_options_flags options sep).1 k))
    ∧ (∀ (options pose_options sep f : String),
        f ∈ (parse_generic_options options pose_options sep).2 ↔
          f ∈ (expand_options_flags options sep).2 ∨ f ∈ (expand_options_flags pose_options sep).2)
    ∧ parse_generic_options "--width 800 --height 600" "--color blue --verbose" "--"
        = ([("width", "800"), ("height", "600"), ("color", "blue")], {"verbose"})
    ∧ parse_generic_options "--x 1" "--x 2" "--" = ([("x", "2")], ∅)
    ∧ (∀ sep, expand_options_flags "" sep = ([], ∅))
    ∧ parse_generic_options "" "" "--" = ([], ∅) := by
  refine ⟨?_, ?_, ?_, ?_, ?_, ?_⟩
  · intro o p sep k
    exact update_get? _ _ (nodupKeys_expand p sep) k
  · intro o p sep f
    exact Finset.mem_union
  · decide
  · decide
  · intro sep
    unfold expand_options_flags
    rw [if_pos rfl]
  · decide

/-! ### join-count lemmas for the reconciliation merge -/

theorem innerJoinRows_length (left right : List Row) (lo ro : String) :
    (innerJoinRows left right lo ro).length
      = (left.map (fun pr =>
          (right.filter (fun rr => Row.get pr lo == Row.get rr ro)).length)).sum := by
  unfold innerJoinRows
  rw [List.length_flatMap]
  congr 1
  apply List.map_congr_left
  intro pr _
  simp [List.length_map]

theorem innerJoinRows_length_swap (left right : List Row) (lo ro : String) :
    (innerJoinRows left right lo ro).length
      = (right.map (fun rr =>
          (left.filter (fun pr => Row.get pr lo == Row.get rr ro)).length)).sum := by
  rw [innerJoinRows_length]
  calc (left.map (fun pr =>
          (right.filter (fun rr => Row.get pr lo == Row.get rr ro)).length)).sum
      = (left.map (fun pr => (right.map (fun rr =>
          if Row.get pr lo == Row.get rr ro then 1 else 0)).sum)).sum := by
        apply congrArg List.sum
        apply List.map_congr_left
        intro pr _
        exact length_filter_eq_sum _ _
    _ = (right.map (fun rr => (left.map (fun pr =>
          if Row.get pr lo == Row.get rr ro then 1 else 0)).sum)).sum :=
        sum_map_comm left right _
    _ = (right.map (fun rr =>
          (left.filter (fun pr => Row.get pr lo == Row.get rr ro)).length)).sum := by
        apply congrArg List.sum
        apply List.map_congr_left
        intro rr _
        exact (length_filter_eq_sum _ _).symm

theorem matched_all_right (poses_rows res_rows : List Row) (lo ro : String)
    (h : ∀ rr ∈ res_rows, ∃ pr ∈ poses_rows, Row.get pr lo = Row.get rr ro) :
    res_rows.length ≤ (innerJoinRows poses_rows res_rows lo ro).length := by
  rw [innerJoinRows_length_swap]
  apply length_le_sum_map
  intro rr hrr
  obtain ⟨pr, hpr, heq⟩ := h rr hrr
  exact List.length_pos_of_mem (List.mem_filter.mpr ⟨hpr, by simp [heq]⟩)

theorem matched_some_left (poses_rows res_rows : List Row) (lo ro : String)
    (hne : poses_rows ≠ [])
    (h : ∀ pr ∈ poses_rows, ∃ rr ∈ res_rows, Row.get pr lo = Row.get rr ro) :
    0 < (innerJoinRows poses_rows res_rows lo ro).length := by
  rw [innerJoinRows_length]
  obtain ⟨pr, hpr⟩ := List.exists_mem_of_ne_nil poses_rows hne
  obtain ⟨rr, hrr, heq⟩ := h pr hpr
  apply sum_map_pos _ _ pr hpr
  exact List.length_pos_of_mem (List.mem_filter.mpr ⟨hrr, by simp [heq]⟩)

theorem disjoint_join_nil (poses_rows res_rows : List Row) (lo ro : String)
    (h : ∀ rr ∈ res_rows, ∀ pr ∈ poses_rows, Row.get pr lo ≠ Row.get rr ro) :
    (innerJoinRows poses_rows res_rows lo ro).length = 0 := by
  rw [innerJoinRows_length]
  have hz : ∀ pr ∈ poses_rows,
      (res_rows.filter (fun rr => Row.get pr lo == Row.get rr ro)).length = 0 := by
    intro pr hpr
    rw [List.length_eq_zero, List.filter_eq_nil_iff]
    intro rr hrr
    simp [h rr hrr pr hpr]
  calc (poses_rows.map (fun pr =>
          (res_rows.filter (fun rr => Row.get pr lo == Row.get rr ro)).length)).sum
      = (poses_rows.map (fun _ => 0)).sum := by
        apply congrArg List.sum
        exact List.map_congr_left hz
    _ = 0 := sum_map_zero _

/-! ### reduction of return_poses in the non-bootstrap branch -/

theorem contains_setCol_of_contains (df : DataFrame) (c x : String) (f : Row → String)
    (h : df.cols.contains x = true) : ((df.setCol c f).cols.contains x) = true := by
  unfold DataFrame.setCol
  dsimp only
  by_cases hc : df.cols.contains c = true
  · rw [if_pos hc]; exact h
  · rw [if_neg hc]
    have hx : x ∈ df.cols := by simpa using h
    simp [List.mem_append_left _ hx]

theorem return_poses_nonempty (poses_df results : DataFrame) (pfx : String)
    (hne : poses_df.rows ≠ [])
    (hpd : poses_df.cols.contains "poses_description" = true)
    (hsel : results.cols.contains (pfx ++ "_select_col") = true) :
    return_poses poses_df results pfx =
      (if (innerJoinRows poses_df.rows results.rows "poses_description"
            (pfx ++ "_select_col")).length = 0 then .error noOverlapMsg
       else if (innerJoinRows poses_df.rows results.rows "poses_description"
            (pfx ++ "_select_col")).length < results.rows.length then .error pipelineDropMsg
       else
         match (DataFrame.mk ((poses_df.cols ++ results.cols).erase (pfx ++ "_select_col"))
             ((innerJoinRows poses_df.rows results.rows "poses_description"
               (pfx ++ "_select_col")).map (fun r => r.eraseCol (pfx ++ "_select_col")))).setColFrom
             "poses" (pfx ++ "_location") with
         | .error e => .error e
         | .ok out1 =>
           match out1.setColFrom "poses_description" (pfx ++ "_description") with
           | .error e => .error e
           | .ok out2 => .ok out2) := by
  unfold return_poses
  have hlen : ¬ ((poses_list poses_df).length = 0) := by
    unfold poses_list
    rw [List.length_map, List.length_eq_zero]
    exact hne
  rw [if_neg hlen]
  unfold mergeOn
  rw [if_pos hpd, if_pos hsel]
  dsimp only
  unfold DataFrame.dropCol
  have hselc : (poses_df.cols ++ results.cols).contains (pfx ++ "_select_col") = true := by
    have : (pfx ++ "_select_col") ∈ results.cols := by simpa using hsel
    simp [List.mem_append_right _ this]
  rw [if_pos hselc]
  dsimp only
  rw [List.length_map]

theorem return_poses_ok_of_bounds (poses_df results : DataFrame) (pfx : String)
    (hne : poses_df.rows ≠ [])
    (hpd : poses_df.cols.contains "poses_description" = true)
    (hsel : results.cols.contains (pfx ++ "_select_col") = true)
    (hloc : results.cols.contains (pfx ++ "_location") = true)
    (hdesc : results.cols.contains (pfx ++ "_description") = true)
    (hJ0 : (innerJoinRows poses_df.rows results.rows "poses_description"
        (pfx ++ "_select_col")).length ≠ 0)
    (hJge : ¬ (innerJoinRows poses_df.rows results.rows "poses_description"
        (pfx ++ "_select_col")).length < results.rows.length) :
    (return_poses poses_df results pfx).isOk = true := by
  rw [return_poses_nonempty poses_df results pfx hne hpd hsel]
  rw [if_neg hJ0, if_neg hJge]
  unfold DataFrame.setColFrom
  have hlocne : (pfx ++ "_location") ≠ (pfx ++ "_select_col") :=
    string_append_ne_of_ne pfx (by decide)
  have hdescne : (pfx ++ "_description") ≠ (pfx ++ "_select_col") :=
    string_append_ne_of_ne pfx (by decide)
  have hlocm : ((poses_df.cols ++ results.cols).erase
      (pfx ++ "_select_col")).contains (pfx ++ "_location") = true := by
    have hmem : (pfx ++ "_location") ∈ poses_df.cols ++ results.cols :=
      List.mem_append_right _ (by simpa using hloc)
    simp [(List.mem_erase_of_ne hlocne).mpr hmem]
  rw [if_pos hlocm]
  dsimp only
  have hdescm : (((DataFrame.mk ((poses_df.cols ++ results.cols).erase (pfx ++ "_select_col"))
      ((innerJoinRows poses_df.rows results.rows "poses_description"
        (pfx ++ "_select_col")).map (fun r => r.eraseCol (pfx ++ "_select_col")))).setCol
      "poses" (fun r => r.get (pfx ++ "_location"))).cols.contains (pfx ++ "_description"))
      = true := by
    apply contains_setCol_of_contains
    have hmem : (pfx ++ "_description") ∈ poses_df.cols ++ results.cols :=
      List.mem_append_right _ (by simpa using hdesc)
    simp [(List.mem_erase_of_ne hdescne).mpr hmem]
  rw [if_pos hdescm]
  rfl

/-! ### claim C1: error conditions of the reconciliation merge -/

/-- Claim C1 (amended): on a non-empty registry with a poses_description
column and a validated result frame carrying the prefixed select_col,
location and description columns, return_poses raises the no-overlap error
exactly when the inner join is empty, and the pipeline-drop error when the
join is non-empty but has fewer rows than the RESULT table had; when every
result row matches some registry row and every registry row matches some
result row, no error is raised.  The short-count check compares the join
against the result table's row count, not the registry's, so a registry
entity without a matching result row raises no error by itself. -/
theorem claim_C1_join_error_conditions (poses_df results : DataFrame) (pfx : String)
    (hne : poses_df.rows ≠ [])
    (hpd : poses_df.cols.contains "poses_description" = true)
    (hsel : results.cols.contains (pfx ++ "_select_col") = true)
    (hloc : results.cols.contains (pfx ++ "_location") = true)
    (hdesc : results.cols.contains (pfx ++ "_description") = true) :
    ((innerJoinRows poses_df.rows results.rows "poses_description"
        (pfx ++ "_select_col")).length = 0 →
      return_poses poses_df results pfx = .error noOverlapMsg)
    ∧ (0 < (innerJoinRows poses_df.rows results.rows "poses_description"
        (pfx ++ "_select_col")).length →
       (innerJoinRows poses_df.rows results.rows "poses_description"
        (pfx ++ "_select_col")).length < results.rows.length →
      return_poses poses_df results pfx = .error pipelineDropMsg)
    ∧ ((∀ rr ∈ results.rows, ∃ pr ∈ poses_df.rows,
          Row.get pr "poses_description" = Row.get rr (pfx ++ "_select_col")) →
       (∀ pr ∈ poses_df.rows, ∃ rr ∈ results.rows,
          Row.get pr "poses_description" = Row.get rr (pfx ++ "_select_col")) →
      (return_poses poses_df results pfx).isOk = true) := by
  refine ⟨?_, ?_, ?_⟩
  · intro hJ
    rw [return_poses_nonempty poses_df results pfx hne hpd hsel, if_pos hJ]
  · intro hJ0 hJlt
    rw [return_poses_nonempty poses_df results pfx hne hpd hsel,
        if_neg (by omega), if_pos hJlt]
  · intro hR hL
    have h1 : results.rows.length ≤ (innerJoinRows poses_df.rows results.rows
        "poses_description" (pfx ++ "_select_col")).length :=
      matched_all_right _ _ _ _ hR
    have h2 : 0 < (innerJoinRows poses_df.rows results.rows
        "poses_description" (pfx ++ "_select_col")).length :=
      matched_some_left _ _ _ _ hne hL
    exact return_poses_ok_of_bounds poses_df results pfx hne hpd hsel hloc hdesc
      (by omega) (by omega)

/-- Registry with two entities a and b, for claim C1. -/
def c1reg : DataFrame := set_poses ["d/a.pdb", "d/b.pdb"]

/-- Raw result table with a single row keyed a, for claim C1. -/
def c1raw : DataFrame :=
  ⟨["description", "location"], [[("description", "a"), ("location", "dir/a.pdb")]]⟩

/-- The validated, prefixed result frame produced from c1raw. -/
def c1res : DataFrame :=
  ⟨["p_description", "p_location", "p_select_col"],
   [[("p_description", "a"), ("p_location", "dir/a.pdb"), ("p_select_col", "a")]]⟩

/-- Counterexample to claim C1 as stated: registry entity b has no matching
result row and the join (one row) has fewer rows than the registry (two
rows), yet return_poses raises no error: the short-count check compares
against the result table's length only. -/
theorem claim_C1_counterexample :
    runner_output_init c1raw "p" 0 "_" = .ok c1res
    ∧ descriptions_list c1reg = ["a", "b"]
    ∧ (∀ rr ∈ c1res.rows, Row.get rr ("p" ++ "_select_col") ≠ "b")
    ∧ (innerJoinRows c1reg.rows c1res.rows "poses_description"
        ("p" ++ "_select_col")).length = 1
    ∧ 1 < c1reg.rows.length
    ∧ (return_poses c1reg c1res "p").isOk = true :=
  ⟨by rfl, by rfl, by decide, by rfl, by decide, by rfl⟩

/-- Registry with the single entity a, for the claim C1 witness. -/
def c1wreg : DataFrame := set_poses ["d/a.pdb"]

/-- Witness for claim C1 at a concrete input where both sides are fully
matched. -/
theorem claim_C1_witness : (return_poses c1wreg c1res "p").isOk = true :=
  (claim_C1_join_error_conditions c1wreg c1res "p" (by decide) (by decide)
    (by decide) (by decide) (by decide)).2.2 (by decide) (by decide)

/-! ### claim C2: failure leaves the registry unchanged -/

/-- Claim C2 (amended): whenever return_poses raises, the registry frame
after the call is the frame it had before; and on a NON-EMPTY registry,
reconciling a result table whose join keys share no overlap with the
registry's poses_description values raises the no-overlap error and leaves
the registry frame unchanged.  (On an empty registry the merge degenerates
to a concatenation and succeeds regardless of overlap.) -/
theorem claim_C2_failure_unchanged (poses_df results : DataFrame) (pfx : String)
    (hne : poses_df.rows ≠ [])
    (hpd : poses_df.cols.contains "poses_description" = true)
    (hsel : results.cols.contains (pfx ++ "_select_col") = true)
    (hdisj : ∀ rr ∈ results.rows, ∀ pr ∈ poses_df.rows,
        Row.get pr "poses_description" ≠ Row.get rr (pfx ++ "_select_col")) :
    (∀ (p r : DataFrame) (q : String),
        (return_poses_state p r q).1.isOk = false → (return_poses_state p r q).2 = p)
    ∧ return_poses_state poses_df results pfx = (.error noOverlapMsg, poses_df) := by
  constructor
  · intro p r q h
    revert h
    unfold return_poses_state
    cases hrp : return_poses p r q <;> intro h
    · rfl
    · exact absurd h (by simp [Except.isOk, Except.toBool])
  · have hJ : (innerJoinRows poses_df.rows results.rows "poses_description"
        (pfx ++ "_select_col")).length = 0 := disjoint_join_nil _ _ _ _ hdisj
    have herr : return_poses poses_df results pfx = .error noOverlapMsg := by
      rw [return_poses_nonempty poses_df results pfx hne hpd hsel, if_pos hJ]
    unfold return_poses_state
    rw [herr]

/-- A validated, prefixed result frame keyed x, disjoint from c1-style
registries, for claim C2. -/
def c2res : DataFrame :=
  ⟨["p_description", "p_location", "p_select_col"],
   [[("p_description", "x"), ("p_location", "dir/x.pdb"), ("p_select_col", "x")]]⟩

/-- Counterexample to claim C2 as stated: on an EMPTY registry the join keys
trivially share no overlap with the registry's poses_description values, yet
return_poses succeeds (bootstrap concatenation) instead of raising the
no-overlap error. -/
theorem claim_C2_counterexample :
    (∀ rr ∈ c2res.rows, ∀ pr ∈ (set_poses ([] : List String)).rows,
        Row.get pr "poses_description" ≠ Row.get rr ("p" ++ "_select_col"))
    ∧ (return_poses_state (set_poses ([] : List String)) c2res "p").1.isOk = true :=
  ⟨by decide, by rfl⟩

/-- Registry with the single entity a, for the claim C2 witness. -/
def c2wreg : DataFrame := set_poses ["d/a.pdb"]

/-- Witness for claim C2 at a concrete input: keys a versus x share no
overlap, the call fails with the no-overlap error and the registry frame is
unchanged. -/
theorem claim_C2_witness :
    return_poses_state c2wreg c2res "p" = (.error noOverlapMsg, c2wreg) :=
  (claim_C2_failure_unchanged c2wreg c2res "p" (by decide) (by decide)
    (by decide) (by decide)).2

/-! ### claim C8: bootstrap concatenation on an empty registry -/

theorem append_ne_of_longer (pfx s t : String) (h : t.length < s.length) :
    pfx ++ s ≠ t := by
  intro hc
  have hlen := congrArg String.length hc
  rw [String.length_append] at hlen
  omega

/-- Claim C8 (amended): on an empty registry, for every validated result
frame WITH AT LEAST ONE ROW, the merge degenerates to a concatenation: no
join-failure error is raised, the resulting frame has exactly as many rows
as the result table, and its poses / poses_description columns are set from
the prefixed location / description columns.  (With zero result rows the
concatenation is empty and the no-overlap error is raised instead.) -/
theorem claim_C8_bootstrap (poses_df results : DataFrame) (pfx : String)
    (hempty : poses_df.rows = [])
    (hnonempty : results.rows ≠ [])
    (hsel : results.cols.contains (pfx ++ "_select_col") = true)
    (hloc : results.cols.contains (pfx ++ "_location") = true)
    (hdesc : results.cols.contains (pfx ++ "_description") = true) :
    ∃ df', return_poses poses_df results pfx = .ok df'
      ∧ df'.rows.length = results.rows.length
      ∧ List.Forall₂ (fun r' r =>
          Row.get r' "poses" = Row.get r (pfx ++ "_location")
          ∧ Row.get r' "poses_description" = Row.get r (pfx ++ "_description"))
        df'.rows results.rows := by
  have hselne : (pfx ++ "_location") ≠ (pfx ++ "_select_col") :=
    string_append_ne_of_ne pfx (by decide)
  have hdescselne : (pfx ++ "_description") ≠ (pfx ++ "_select_col") :=
    string_append_ne_of_ne pfx (by decide)
  unfold return_poses
  have hlen : (poses_list poses_df).length = 0 := by
    unfold poses_list
    rw [List.length_map, List.length_eq_zero]
    exact hempty
  rw [if_pos hlen]
  unfold concatDF
  rw [hempty, List.nil_append]
  dsimp only
  unfold DataFrame.dropCol
  dsimp only
  have hselc : (poses_df.cols ++ results.cols.filter
      (fun c => !(poses_df.cols.contains c))).contains (pfx ++ "_select_col") = true := by
    by_cases hc : (pfx ++ "_select_col") ∈ poses_df.cols
    · simp [List.mem_append_left _ hc]
    · simp
      exact Or.inr ⟨by simpa using hsel, hc⟩
  rw [if_pos hselc]
  dsimp only
  rw [List.length_map]
  have hrne : ¬ (results.rows.length = 0) := by
    rw [List.length_eq_zero]
    exact hnonempty
  rw [if_neg hrne, if_neg (by omega)]
  unfold DataFrame.setColFrom
  dsimp only
  have hlocm : ((poses_df.cols ++ results.cols.filter
      (fun c => !(poses_df.cols.contains c))).erase
      (pfx ++ "_select_col")).contains (pfx ++ "_location") = true := by
    have hm : (pfx ++ "_location") ∈ poses_df.cols ++ results.cols.filter
        (fun c => !(poses_df.cols.contains c)) := by
      by_cases hc : (pfx ++ "_location") ∈ poses_df.cols
      · exact List.mem_append_left _ hc
      · exact List.mem_append_right _
          (List.mem_filter.mpr ⟨by simpa using hloc, by simp [hc]⟩)
    have hmem2 := (List.mem_erase_of_ne hselne).mpr hm
    simpa using hmem2
  rw [if_pos hlocm]
  dsimp only
  have hdescm : (((DataFrame.mk ((poses_df.cols ++ results.cols.filter
      (fun c => !(poses_df.cols.contains c))).erase (pfx ++ "_select_col"))
      (results.rows.map (fun r => r.eraseCol (pfx ++ "_select_col")))).setCol
      "poses" (fun r => r.get (pfx ++ "_location"))).cols.contains
      (pfx ++ "_description")) = true := by
    apply contains_setCol_of_contains
    have hm : (pfx ++ "_description") ∈ poses_df.cols ++ results.cols.filter
        (fun c => !(poses_df.cols.contains c)) := by
      by_cases hc : (pfx ++ "_description") ∈ poses_df.cols
      · exact List.mem_append_left _ hc
      · exact List.mem_append_right _
          (List.mem_filter.mpr ⟨by simpa using hdesc, by simp [hc]⟩)
    have hmem2 := (List.mem_erase_of_ne hdescselne).mpr hm
    simpa using hmem2
  rw [if_pos hdescm]
  refine ⟨_, rfl, ?_, ?_⟩
  · simp [DataFrame.setCol, List.length_map]
  · simp only [DataFrame.setCol, List.map_map]
    apply forall₂_map_left
    intro r _
    dsimp only [Function.comp]
    constructor
    · rw [get_set_ne _ _ _ _ (by decide), get_set_self,
          get_eraseCol_ne _ _ _ hselne]
    · rw [get_set_self,
          get_set_ne _ _ _ _ (append_ne_of_longer pfx "_description" "poses" (by decide)),
          get_eraseCol_ne _ _ _ hdescselne]

/-- Validated empty result frame, for the claim C8 counterexample. -/
def c8res : DataFrame := ⟨["p_description", "p_location", "p_select_col"], []⟩

/-- Counterexample to claim C8 as stated: an empty registry and an EMPTY
(but validly formatted) result table do not succeed: the concatenation is
empty and the no-overlap error is raised. -/
theorem claim_C8_counterexample :
    runner_output_init ⟨["description", "location"], []⟩ "p" 0 "_" = .ok c8res
    ∧ (set_poses ([] : List String)).rows = []
    ∧ return_poses (set_poses ([] : List String)) c8res "p" = .error noOverlapMsg :=
  ⟨by rfl, by rfl, by rfl⟩

/-- One-row validated result frame, for the claim C8 witness. -/
def c8wres : DataFrame :=
  ⟨["p_description", "p_location", "p_select_col"],
   [[("p_description", "y"), ("p_location", "dir/y.pdb"), ("p_select_col", "y")]]⟩

/-- Witness for claim C8 at a concrete input. -/
theorem claim_C8_witness :
    ∃ df', return_poses (set_poses ([] : List String)) c8wres "p" = .ok df'
      ∧ df'.rows.length = c8wres.rows.length
      ∧ List.Forall₂ (fun r' r =>
          Row.get r' "poses" = Row.get r ("p" ++ "_location")
          ∧ Row.get r' "poses_description" = Row.get r ("p" ++ "_description"))
        df'.rows c8wres.rows :=
  claim_C8_bootstrap (set_poses ([] : List String)) c8wres "p"
    (by rfl) (by decide) (by decide) (by decide) (by decide)

/-! ### claim C6: uniqueness of descriptions -/

/-- Claim C6 (amended): set_poses derives the poses_description column as
exactly the parsed stems of the input paths, so its values are pairwise
distinct precisely when those stems are; neither creation nor the mutating
operations enforce distinctness. -/
theorem claim_C6_description_uniqueness (paths : List String) :
    descriptions_list (set_poses paths) = parse_descriptions paths
    ∧ ((descriptions_list (set_poses paths)).Nodup ↔ (parse_descriptions paths).Nodup) := by
  have h : descriptions_list (set_poses paths) = parse_descriptions paths := by
    unfold descriptions_list set_poses parse_descriptions
    dsimp only
    rw [List.map_map]
    apply List.map_congr_left
    intro p _
    rfl
  exact ⟨h, by rw [h]⟩

/-- Counterexample to claim C6 as stated: a registry created from two paths
with the same stem has duplicate poses_description values; uniqueness is not
checked anywhere. -/
theorem claim_C6_counterexample :
    descriptions_list (set_poses ["d1/x.pdb", "d2/x.pdb"]) = ["x", "x"]
    ∧ ¬ (descriptions_list (set_poses ["d1/x.pdb", "d2/x.pdb"])).Nodup :=
  ⟨by rfl, by decide⟩

/-! ### claim C7: duplicate_poses -/

/-- Claim C7 (code bug): duplicate_poses never reaches its documented
behaviour.  Line 308 of poses.py computes self.df.merge(...) without
assigning the result, so the temp_dp columns are never added to self.df;
line 311 then drops temp_dp_select_col from the unchanged frame, which
raises a KeyError for every ordinary registry.  The theorem evaluates the
embedded code at a concrete registry of size one with two duplicates
requested. -/
theorem claim_C7_duplicate_poses_bug :
    duplicate_poses (set_poses ["dir/pose.pdb"]) "out" 2
      = .error "KeyError: temp_dp_select_col not found in axis" := by rfl

/-! ### claim C9: prep_pose_options -/

/-- Registry frame with an extra per-entity option column, for claim C9. -/
def c9reg : DataFrame :=
  ⟨["input_poses", "poses", "poses_description", "opts"],
   [[("input_poses", "d/a.pdb"), ("poses", "d/a.pdb"),
     ("poses_description", "a"), ("opts", "-x 1")]]⟩

/-- Claim C9 (code bug): when pose_options is a column name the source
calls poses.df[col].poses_list() (runners.py line 104); poses_list is a
method of the Poses class, not of a pandas Series, so even for a PRESENT
column an AttributeError is raised instead of returning the column's
values (an absent column still raises the KeyError of col_in_df first).
The None default and literal-list length check behave as the claim states,
including the degenerate empty-registry case. -/
theorem claim_C9_prep_pose_options_bug :
    c9reg.cols.contains "opts" = true
    ∧ prep_pose_options c9reg (.fromCol "opts")
        = .error "AttributeError: Series object has no attribute poses_list"
    ∧ prep_pose_options c9reg (.fromCol "missing")
        = .error "KeyError: Could not find missing in poses dataframe!"
    ∧ prep_pose_options c9reg .unset = .ok [none]
    ∧ prep_pose_options c9reg (.lit [some "x", some "y"])
        = .error "ValueError: poses and pose_options must be of the same length"
    ∧ prep_pose_options (set_poses ([] : List String)) (.lit [some "x"]) = .ok [some "x"] :=
  ⟨by rfl, by rfl, by rfl, by rfl, by rfl, by rfl⟩

/-! ### claim C10: first-dot versus last-dot description derivations -/

theorem tw_all {p : Char → Bool} {l : List Char} (h : ∀ x ∈ l, p x = true) :
    l.takeWhile p = l :=
  List.takeWhile_eq_self_iff.mpr h

theorem tw_none {p : Char → Bool} {l : List Char} (h : ∀ x ∈ l, p x = false) :
    l.takeWhile p = [] := by
  cases l with
  | nil => rfl
  | cons a t => rw [List.takeWhile_cons, h a (by simp)]; simp

theorem tw_append_all {p : Char → Bool} {a : List Char} (b : List Char)
    (h : ∀ x ∈ a, p x = true) : (a ++ b).takeWhile p = a ++ b.takeWhile p := by
  induction a with
  | nil => simp
  | cons x xs ih =>
    rw [List.cons_append, List.takeWhile_cons, h x (by simp)]
    rw [if_pos rfl, ih (fun y hy => h y (by simp [hy])), List.cons_append]

theorem tw_append_stop {p : Char → Bool} {a : List Char} (b : List Char)
    (h : ∃ x ∈ a, p x = false) : (a ++ b).takeWhile p = a.takeWhile p := by
  induction a with
  | nil => obtain ⟨x, hx, -⟩ := h; cases hx
  | cons x xs ih =>
    cases hpx : p x with
    | false => rw [List.cons_append, List.takeWhile_cons, hpx, List.takeWhile_cons, hpx]; simp
    | true =>
      have hxs : ∃ y ∈ xs, p y = false := by
        obtain ⟨y, hy, hpy⟩ := h
        rcases List.mem_cons.mp hy with h1 | h1
        · subst h1; rw [hpx] at hpy; cases hpy
        · exact ⟨y, h1, hpy⟩
      rw [List.cons_append, List.takeWhile_cons, hpx, List.takeWhile_cons, hpx, ih hxs]

theorem dropWhile_eq_self_of_head_false (p : Char → Bool) (l : List Char)
    (h : ∀ x, l.head? = some x → p x = false) : l.dropWhile p = l := by
  cases l with
  | nil => rfl
  | cons a t => rw [List.dropWhile_cons, h a rfl]; simp

/-- When the path has no trailing separator, stripping both ends only
strips the front. -/
theorem stripCharL_no_trailing (c : Char) (cs : List Char) (h : cs.getLast? ≠ some c) :
    stripCharL c cs = cs.dropWhile (fun a => a == c) := by
  unfold stripCharL
  have key : ((cs.dropWhile (fun a => a == c)).reverse.dropWhile (fun a => a == c))
      = (cs.dropWhile (fun a => a == c)).reverse := by
    apply dropWhile_eq_self_of_head_false
    intro x hx
    rw [List.head?_reverse] at hx
    have hdne : cs.dropWhile (fun a => a == c) ≠ [] := by
      intro hnil
      rw [hnil] at hx
      cases hx
    have hlast : cs.getLast? = some x := by
      conv_lhs => rw [← List.takeWhile_append_dropWhile (p := fun a => a == c) (l := cs)]
      rw [List.getLast?_append_of_ne_nil _ hdne]
      exact hx
    have hxc : x ≠ c := by
      intro hcc
      rw [hcc] at hlast
      exact h hlast
    exact beq_eq_false_iff_ne.mpr hxc
  rw [key, List.reverse_reverse]

/-- Dropping a leading run of separator characters does not change the
suffix after the last separator. -/
theorem afterLastChar_dropWhile (c : Char) (cs : List Char) :
    afterLastChar c (cs.dropWhile (fun a => a == c)) = afterLastChar c cs := by
  have hdecomp : cs = cs.takeWhile (fun a => a == c) ++ cs.dropWhile (fun a => a == c) :=
    (List.takeWhile_append_dropWhile (fun a => a == c) cs).symm
  by_cases hm : c ∈ cs.dropWhile (fun a => a == c)
  · conv_rhs => rw [hdecomp]
    unfold afterLastChar
    rw [List.reverse_append]
    rw [tw_append_stop _ ⟨c, List.mem_reverse.mpr hm, by simp⟩]
  · have hdropall : ∀ x ∈ (cs.dropWhile (fun a => a == c)).reverse, (x != c) = true := by
      intro x hx
      have hxm := List.mem_reverse.mp hx
      have : x ≠ c := fun hcc => hm (hcc ▸ hxm)
      simpa using this
    have htakeall : ∀ x ∈ (cs.takeWhile (fun a => a == c)).reverse, ((x != c) : Bool) = false := by
      intro x hx
      have hxm := List.mem_reverse.mp hx
      have hxc := List.mem_takeWhile_imp hxm
      simp [show x = c by simpa using hxc]
    have lhs_eq : afterLastChar c (cs.dropWhile (fun a => a == c))
        = cs.dropWhile (fun a => a == c) := by
      unfold afterLastChar
      rw [tw_all hdropall, List.reverse_reverse]
    have rhs_eq : afterLastChar c cs = cs.dropWhile (fun a => a == c) := by
      conv_lhs => rw [hdecomp]
      unfold afterLastChar
      rw [List.reverse_append, tw_append_all _ hdropall, tw_none htakeall,
          List.append_nil, List.reverse_reverse]
    rw [lhs_eq, rhs_eq]

theorem lastDotIdx_not_mem (l : List Char) (h : '.' ∉ l) : lastDotIdx l = none := by
  induction l with
  | nil => rfl
  | cons x xs ih =>
    have hx : x ≠ '.' := fun hcc => h (by simp [hcc])
    have hxs : '.' ∉ xs := fun hcc => h (by simp [hcc])
    unfold lastDotIdx
    rw [ih hxs]
    simp [beq_eq_false_iff_ne.mpr hx]

theorem lastDotIdx_append_dot (b1 b2 : List Char) (h1 : '.' ∉ b1) (h2 : '.' ∉ b2) :
    lastDotIdx (b1 ++ '.' :: b2) = some b1.length := by
  induction b1 with
  | nil =>
    rw [List.nil_append]
    unfold lastDotIdx
    rw [lastDotIdx_not_mem b2 h2]
    simp
  | cons x xs ih =>
    have hx : x ≠ '.' := fun hcc => h1 (by simp [hcc])
    have hxs : '.' ∉ xs := fun hcc => h1 (by simp [hcc])
    rw [List.cons_append]
    unfold lastDotIdx
    rw [ih hxs]
    simp

theorem head?_append_left {l1 : List Char} (l2 : List Char) (h : l1 ≠ []) :
    (l1 ++ l2).head? = l1.head? := by
  cases l1 with
  | nil => exact absurd rfl h
  | cons a t => rfl

theorem exists_first_dot_split (b : List Char) (h : '.' ∈ b) :
    ∃ b1 b2, b = b1 ++ '.' :: b2 ∧ '.' ∉ b1
      ∧ b.takeWhile (fun a => a != '.') = b1 := by
  induction b with
  | nil => cases h
  | cons x xs ih =>
    by_cases hx : x = '.'
    · subst hx
      refine ⟨[], xs, by simp, by simp, ?_⟩
      rw [List.takeWhile_cons]
      simp
    · have hxs : '.' ∈ xs := by
        rcases List.mem_cons.mp h with h1 | h1
        · exact absurd h1.symm hx
        · exact h1
      obtain ⟨b1, b2, hb, hnb1, htw⟩ := ih hxs
      refine ⟨x :: b1, b2, by rw [List.cons_append, ← hb], ?_, ?_⟩
      · intro hc
        rcases List.mem_cons.mp hc with h1 | h1
        · exact hx h1.symm
        · exact hnb1 h1
      · rw [List.takeWhile_cons]
        have hxb : (x != '.') = true := by simpa using hx
        rw [hxb]
        simp only [if_true]
        rw [htw]

/-- Core of claim C10: on a basename that does not begin with a dot and
contains at most one dot, cutting at the first dot and the os.path.splitext
root agree. -/
theorem firstcut_eq_splitext (b : List Char)
    (hhead : b.head? ≠ some '.')
    (hcount : b.count '.' ≤ 1) :
    beforeFirstChar '.' b = splitextRootL b := by
  by_cases hm : '.' ∈ b
  · obtain ⟨b1, b2, hsplit, hnb1, htw⟩ := exists_first_dot_split b hm
    have hb1ne : b1 ≠ [] := by
      intro hnil
      rw [hnil, List.nil_append] at hsplit
      rw [hsplit] at hhead
      exact hhead rfl
    have hcnt : b.count '.' = b2.count '.' + 1 := by
      conv_lhs => rw [hsplit]
      rw [List.count_append, List.count_eq_zero.mpr hnb1, List.count_cons_self]
      omega
    have hnb2 : '.' ∉ b2 := by
      have hz : b2.count '.' = 0 := by omega
      exact List.count_eq_zero.mp hz
    have hidx : lastDotIdx b = some b1.length := by
      conv_lhs => rw [hsplit]
      exact lastDotIdx_append_dot b1 b2 hnb1 hnb2
    have htake : b.take b1.length = b1 := by
      conv_lhs => rw [hsplit]
      exact List.take_left b1 _
    have hall : (b.take b1.length).all (fun a => a == '.') = false := by
      rw [htake]
      cases hb1c : b1 with
      | nil => exact absurd hb1c hb1ne
      | cons y ys =>
        have hy : b.head? = some y := by
          rw [hsplit, head?_append_left _ hb1ne, hb1c]
          rfl
        have hyne : y ≠ '.' := fun hcc => hhead (by rw [hy, hcc])
        simp [List.all_cons, beq_eq_false_iff_ne.mpr hyne]
    unfold splitextRootL
    rw [hidx]
    dsimp only
    rw [hall]
    simp only [Bool.false_eq_true, if_false]
    rw [htake]
    exact htw
  · unfold beforeFirstChar splitextRootL
    rw [lastDotIdx_not_mem b hm]
    exact tw_all (fun x hx => by
      have : x ≠ '.' := fun hcc => hm (hcc ▸ hx)
      simpa using this)

/-- Claim C10 (amended): registry creation (parse_description, first-dot
cut) and reconciler validation (extract_description, last-dot cut) agree on
every path that does not end with a slash and whose base filename contains
at most one dot and does not begin with a dot; they differ on multi-dot
names such as dir/pose.v1.pdb, so a freshly created registry need not
satisfy the basename-without-extension correspondence that validation
enforces on result tables. -/
theorem claim_C10_description_derivations :
    (∀ path : String,
        path.toList.getLast? ≠ some '/' →
        (basename path).toList.head? ≠ some '.' →
        (basename path).toList.count '.' ≤ 1 →
        parse_description path = extract_description path)
    ∧ parse_description "dir/pose.v1.pdb" = "pose"
    ∧ extract_description "dir/pose.v1.pdb" = "pose.v1"
    ∧ descriptions_list (set_poses ["dir/pose.v1.pdb"]) = ["pose"]
    ∧ parse_description "dir/pose.v1.pdb" ≠ extract_description "dir/pose.v1.pdb" := by
  refine ⟨?_, by rfl, by rfl, by rfl, by decide⟩
  intro path h1 h2 h3
  unfold parse_description extract_description basename
  apply congrArg String.mk
  rw [stripCharL_no_trailing '/' path.toList h1, afterLastChar_dropWhile '/' path.toList]
  exact firstcut_eq_splitext _ h2 h3

/-- Counterexample to claim C10 as stated: dir/.bashrc has a base filename
with exactly one dot, yet the two derivations disagree (creation cuts the
name down to the empty string, validation keeps the whole dotfile name). -/
theorem claim_C10_counterexample :
    (basename "dir/.bashrc").toList.count '.' ≤ 1
    ∧ parse_description "dir/.bashrc" = ""
    ∧ extract_description "dir/.bashrc" = ".bashrc"
    ∧ parse_description "dir/.bashrc" ≠ extract_description "dir/.bashrc" :=
  ⟨by decide, by rfl, by rfl, by decide⟩

/-- Witness for claim C10 at a concrete input. -/
theorem claim_C10_witness : parse_description "x/y.pdb" = extract_description "x/y.pdb" :=
  claim_C10_description_derivations.1 "x/y.pdb" (by decide) (by decide) (by decide)

end ProtSLURM
